import Mathlib

/-!
Verification of the playwright-mcp API request / session-report engine.

Shallow embedding of the core of `src/tools/apiRequest.ts` and
`src/tools/apiSessionReport.ts`: the template engine, field extractor,
response validator, chain orchestrator, session store and the HTML log-entry
renderer.  JavaScript values flowing through the tool are JSON data; they
are modelled by the inductive `Json` below.  Numbers are modelled as `Int`
(every number appearing in the claims is an integer).  The HTTP transport,
the regex engine, `crypto.randomUUID` and `new Date()` are external
capabilities and are passed in as oracle parameters (`tr`, `rt`, `gen`,
`ts`).  JavaScript `undefined` is modelled with `Option`.
-/

set_option maxHeartbeats 1000000

namespace PwMcp

/-- JSON-like JavaScript values.  Objects keep insertion order, as JS
objects do; keys are assumed unique (JS object semantics). -/
inductive Json where
  | null : Json
  | bool : Bool → Json
  | num : Int → Json
  | str : String → Json
  | arr : List Json → Json
  | obj : List (String × Json) → Json

/-- JS `v === null` test on a JSON value. -/
def Json.isNull : Json → Bool
  | .null => true
  | _ => false

/-- First-match association lookup (JS property read on a plain object). -/
def jlookup (kvs : List (String × Json)) (k : String) : Option Json :=
  match kvs.find? (fun kv => kv.1 == k) with
  | some kv => some kv.2
  | none    => none

/-- JS canonical array index: `a["0"]` hits index 0, but `a["00"]` or
`a["1x"]` are plain (absent) properties. -/
def jsArrayIndex (s : String) : Option Nat :=
  if s.data ≠ [] ∧ (∀ c ∈ s.data, c.isDigit) ∧ (s.data.head? = some '0' → s.data = ['0']) then
    some (s.foldl (fun n c => n * 10 + (c.toNat - 48)) 0)
  else none

/-- JS property access `v[p]` restricted to data properties: object fields
and array indices.  Exotic built-ins (`length`, string indices, methods)
are outside the data model and yield `none`. -/
def jget (v : Json) (p : String) : Option Json :=
  match v with
  | .obj kvs => jlookup kvs p
  | .arr xs  => match jsArrayIndex p with
                | some i => xs.get? i
                | none => none
  | _ => none

/-- JS optional chaining `v?.[p]` (`undefined`/`null` short-circuit). -/
def jgetOpt (v : Option Json) (p : String) : Option Json :=
  match v with
  | some .null => none
  | some w => jget w p
  | none => none

/-- Two-digit lowercase hex of a byte (for JSON control-character escapes). -/
def hexByte (n : Nat) : String :=
  let d := fun (m : Nat) => if m < 10 then Char.ofNat (48 + m) else Char.ofNat (87 + m)
  String.mk [d (n / 16 % 16), d (n % 16)]

/-- One character of `JSON.stringify` string escaping. -/
def jsonEscapeChar (c : Char) : String :=
  if c = '"' then "\\\""
  else if c = '\\' then "\\\\"
  else if c = '\n' then "\\n"
  else if c = '\t' then "\\t"
  else if c = '\r' then "\\r"
  else if c = '\x08' then "\\b"
  else if c = '\x0c' then "\\f"
  else if c.toNat < 32 then "\\u00" ++ hexByte c.toNat
  else String.mk [c]

/-- The `JSON.stringify` escaping of a string body. -/
def jsonEscape (s : String) : String :=
  String.join (s.data.map jsonEscapeChar)

mutual
/-- Compact `JSON.stringify(v)` (no spacing), the serialization the
validator compares with `===`.  Object keys appear in insertion order. -/
def stringify : Json → String
  | .null => "null"
  | .bool b => if b then "true" else "false"
  | .num n => toString n
  | .str s => "\"" ++ jsonEscape s ++ "\""
  | .arr xs => "[" ++ String.intercalate "," (stringifyList xs) ++ "]"
  | .obj kvs => "\x7b" ++ String.intercalate "," (stringifyProps kvs) ++ "\x7d"

/-- Serializations of the elements of an array. -/
def stringifyList : List Json → List String
  | [] => []
  | x :: xs => stringify x :: stringifyList xs

/-- The `"key":value` serializations of the properties of an object. -/
def stringifyProps : List (String × Json) → List String
  | [] => []
  | kv :: kvs => ("\"" ++ jsonEscape kv.1 ++ "\":" ++ stringify kv.2) :: stringifyProps kvs
end

/-- The `n` spaces (for `JSON.stringify(v, null, 2)` indentation). -/
def pad (n : Nat) : String := String.mk (List.replicate n ' ')

mutual
/-- The `JSON.stringify(v, null, 2)` at nesting depth `d` (the report code dumps
headers and bodies with two-space indentation). -/
def stringifyIndent (d : Nat) : Json → String
  | .null => "null"
  | .bool b => if b then "true" else "false"
  | .num n => toString n
  | .str s => "\"" ++ jsonEscape s ++ "\""
  | .arr xs =>
    match xs with
    | [] => "[]"
    | _ => "[\n" ++ String.intercalate ",\n" (stringifyIndentList (d + 1) xs) ++
           "\n" ++ pad (2 * d) ++ "]"
  | .obj kvs =>
    match kvs with
    | [] => "\x7b\x7d"
    | _ => "\x7b\n" ++ String.intercalate ",\n" (stringifyIndentProps (d + 1) kvs) ++
           "\n" ++ pad (2 * d) ++ "\x7d"

/-- Indented serializations of the elements of an array. -/
def stringifyIndentList (d : Nat) : List Json → List String
  | [] => []
  | x :: xs => (pad (2 * d) ++ stringifyIndent d x) :: stringifyIndentList d xs

/-- Indented `"key": value` serializations of the properties of an object. -/
def stringifyIndentProps (d : Nat) : List (String × Json) → List String
  | [] => []
  | kv :: kvs =>
    (pad (2 * d) ++ "\"" ++ jsonEscape kv.1 ++ "\": " ++ stringifyIndent d kv.2) ::
    stringifyIndentProps d kvs
end

/-- The `JSON.stringify(v, null, 2)` as called by the report generator. -/
def stringifyPretty (j : Json) : String := stringifyIndent 0 j

mutual
/-- JS `String(v)` coercion (`Array.prototype.toString` joins elements with
`,`, rendering `null` elements as the empty string; objects render as
`[object Object]`).  The flag marks element position inside an array. -/
def jsStringAux : Bool → Json → String
  | inArr, .null => if inArr then "" else "null"
  | _, .bool b => if b then "true" else "false"
  | _, .num n => toString n
  | _, .str s => s
  | _, .arr xs => String.intercalate "," (jsStringList xs)
  | _, .obj _ => "[object Object]"

/-- Element renderings inside an array's `toString`. -/
def jsStringList : List Json → List String
  | [] => []
  | x :: xs => jsStringAux true x :: jsStringList xs
end

/-- JS `String(v)`. -/
def jsString (j : Json) : String := jsStringAux false j

/-! ## Template engine (`renderTemplate` in apiRequest.ts)

`str.replace(/{{\s*([\w.]+)\s*}}/g, cb)`: the pattern is two literal braces,
optional whitespace, a non-empty run of word/dot characters (the captured
path), optional whitespace, two closing braces.  Since no word/dot character
is whitespace or a closing brace, the regex engine's backtracking never
changes the greedy maximal runs, so leftmost scanning with maximal
`takeWhile` runs is an exact model of the JS global replace. -/

/-- JS regex `\s` on the characters that can appear here (the full JS class
additionally has rare Unicode spaces, irrelevant to the claims). -/
def jsSpace (c : Char) : Bool :=
  c == ' ' || c == '\t' || c == '\n' || c == '\r' || c == '\x0b' || c == '\x0c'

/-- JS regex class `[\w.]`: ASCII letters, digits, underscore, dot. -/
def wordDot (c : Char) : Bool :=
  c.isAlphanum || c == '_' || c == '.'

/-- Match the closing `}}` of the pattern. -/
def closeMatch : List Char → Option (List Char)
  | c1 :: c2 :: r => if c1 = '}' ∧ c2 = '}' then some r else none
  | _ => none

/-- Try to match `{{\s*([\w.]+)\s*}}` at the head of the character list;
returns the captured path and the characters after the match. -/
def tryMatch (l : List Char) : Option (List Char × List Char) :=
  match l with
  | c1 :: c2 :: rest =>
    if c1 = '{' ∧ c2 = '{' then
      let r1 := rest.dropWhile jsSpace
      let w := r1.takeWhile wordDot
      if w.isEmpty then none
      else (closeMatch ((r1.dropWhile wordDot).dropWhile jsSpace)).map (fun r4 => (w, r4))
    else none
  | _ => none

theorem length_dropWhile_le {α : Type} (p : α → Bool) (l : List α) :
    (l.dropWhile p).length ≤ l.length := by
  induction l with
  | nil => simp
  | cons c cs ih =>
    rw [List.dropWhile_cons]
    split
    · exact Nat.le_trans ih (Nat.le_succ _)
    · exact Nat.le_refl _

theorem closeMatch_length {l r : List Char} (h : closeMatch l = some r) :
    r.length + 2 = l.length := by
  match l with
  | [] => simp [closeMatch] at h
  | [c] => simp [closeMatch] at h
  | c1 :: c2 :: t =>
    simp only [closeMatch] at h
    split at h
    · cases h
      simp
    · exact absurd h (by simp)

theorem tryMatch_length {l : List Char} {w r : List Char}
    (h : tryMatch l = some (w, r)) : r.length + 4 ≤ l.length := by
  match l with
  | [] => simp [tryMatch] at h
  | [c] => simp [tryMatch] at h
  | c1 :: c2 :: rest =>
    simp only [tryMatch] at h
    split at h
    · split at h
      · exact absurd h (by simp)
      · rw [Option.map_eq_some'] at h
        obtain ⟨r4, hcm, heq⟩ := h
        cases heq
        have h1 := closeMatch_length hcm
        have h2 := length_dropWhile_le jsSpace rest
        have h3 := length_dropWhile_le wordDot (rest.dropWhile jsSpace)
        have h4 := length_dropWhile_le jsSpace ((rest.dropWhile jsSpace).dropWhile wordDot)
        simp only [List.length_cons]
        omega
    · exact absurd h (by simp)

/-- Chain-local variable scope: JS `Record<string, any>` whose values may be
`undefined` (extraction can store `undefined` under a defined key). -/
abbrev Scope := List (String × Option Json)

/-- Read `vars[k]`, flattening a defined-but-`undefined` entry to absent. -/
def scopeGet (vars : Scope) (k : String) : Option Json :=
  match vars.find? (fun kv => kv.1 == k) with
  | some kv => kv.2
  | none => none

/-- Split a path on `.` like JS `String.prototype.split('.')`, keeping empty
segments (`"a..b" → ["a","","b"]`, `"" → [""]`). -/
def splitDots : List Char → List (List Char)
  | [] => [[]]
  | c :: cs =>
    if c = '.' then [] :: splitDots cs
    else
      match splitDots cs with
      | s :: ss => (c :: s) :: ss
      | [] => [[c]]

/-- The replacement callback: split the captured path, read the first
segment from the scope, walk the rest with optional chaining, and coerce
with `String(...)`, or produce `""` when the walk ends `undefined`. -/
def renderResolve (vars : Scope) (path : List Char) : String :=
  match splitDots path with
  | [] => ""
  | step :: rest =>
    let val := rest.foldl (fun v p => jgetOpt v (String.mk p)) (scopeGet vars (String.mk step))
    match val with
    | some v => jsString v
    | none => ""

/-- The global-replace loop of `renderTemplate`, with an explicit fuel
bound for structural recursion.  Every iteration strictly shortens the
input (a match consumes at least four characters, a non-match one), so
with fuel at least the input length the exhaustion branch is unreachable
and the loop equals JS's unbounded global replace. -/
def renderLoop (vars : Scope) : Nat → List Char → List Char
  | _, [] => []
  | 0, l => l
  | fuel + 1, c :: cs =>
    match tryMatch (c :: cs) with
    | some (path, rest) => (renderResolve vars path).data ++ renderLoop vars fuel rest
    | none => c :: renderLoop vars fuel cs

/-- The global-replace loop at its sufficient fuel. -/
def renderTemplateChars (vars : Scope) (l : List Char) : List Char :=
  renderLoop vars l.length l

/-- The `renderTemplate(str, vars)` from apiRequest.ts. -/
def renderTemplate (vars : Scope) (s : String) : String :=
  String.mk (renderTemplateChars vars s.data)

/-- Does the template pattern match anywhere in the list (i.e. does the
string contain a placeholder occurrence)? -/
def hasTemplateMatch : List Char → Bool
  | [] => false
  | c :: cs => (tryMatch (c :: cs)).isSome || hasTemplateMatch cs

/-! ## Field extractor (`extractFields` in apiRequest.ts) -/

/-- Walk a dot-path with optional chaining from a starting value. -/
def walkPath (v : Option Json) : List (List Char) → Option Json
  | [] => v
  | p :: ps => walkPath (jgetOpt v (String.mk p)) ps

/-- The `extractFields(obj, extract)`: each extract entry `k: path` walks the
dot-path over the response body; an `undefined` intermediate short-circuits
to `undefined` (`none`), never throwing. -/
def extractFields (body : Json) (extract : List (String × String)) : Scope :=
  extract.map (fun kv => (kv.1, walkPath (some body) (splitDots kv.2.data)))

/-- JS property assignment `m[k] = v`: overwrite in place if the key exists,
else append (insertion order preserved). -/
def setKey {α : Type} (m : List (String × α)) (k : String) (v : α) : List (String × α) :=
  if m.any (fun kv => kv.1 == k) then
    m.map (fun kv => if kv.1 == k then (kv.1, v) else kv)
  else m ++ [(k, v)]

/-- The `Object.assign(target, src)`: assign every entry of `src` in order. -/
def assignAll {α : Type} (m : List (String × α)) (src : List (String × α)) :
    List (String × α) :=
  src.foldl (fun acc kv => setKey acc kv.1 kv.2) m

/-! ## Response validator (apiRequest.ts lines 134-167 / 250-285) -/

/-- Is `ns` a prefix of `hs`? (building block of `String.includes`). -/
def listIsPre {α : Type} [DecidableEq α] : List α → List α → Bool
  | [], _ => true
  | _ :: _, [] => false
  | n :: ns, h :: hs => n = h && listIsPre ns hs

/-- Does `hs` contain `ns` as a contiguous sublist? -/
def listSub {α : Type} [DecidableEq α] : List α → List α → Bool
  | ns, [] => ns.isEmpty
  | ns, h :: hs => listIsPre ns (h :: hs) || listSub ns hs

/-- JS `haystack.includes(needle)`. -/
def strIncludes (haystack needle : String) : Bool :=
  listSub needle.data haystack.data

theorem listIsPre_iff {α : Type} [DecidableEq α] (ns hs : List α) :
    listIsPre ns hs = true ↔ ns <+: hs := by
  induction ns generalizing hs with
  | nil => simp [listIsPre]
  | cons n ns ih =>
    cases hs with
    | nil => simp [listIsPre]
    | cons h hs =>
      simp only [listIsPre, Bool.and_eq_true, decide_eq_true_eq, ih, List.cons_prefix_cons]

theorem listSub_iff {α : Type} [DecidableEq α] (ns hs : List α) :
    listSub ns hs = true ↔ ns <:+: hs := by
  induction hs with
  | nil => simp [listSub, List.isEmpty_iff]
  | cons h hs ih =>
    simp only [listSub, Bool.or_eq_true, listIsPre_iff, ih, List.infix_cons_iff]

/-- The `expect` descriptor of a request or chain step (apiRequest.ts input
schema): every field optional. -/
structure Expectation where
  status : Option Int
  contentType : Option String
  body : Option Json
  bodyRegex : Option String

/-- The `step.expect || {}`. -/
def defaultExpectation : Expectation := ⟨none, none, none, none⟩

/-- The `validation` object: status and content-type pass/fail. -/
structure ValidationResult where
  status : Bool
  contentType : Bool
deriving Repr, DecidableEq

/-- The `validation` as computed by the code.  Note the JS truthiness tests:
`expect.status ? ... : true` skips the comparison when the expected status
is `0`, and `expect.contentType ? ... : true` skips it when the expected
content-type is the empty string. -/
def computeValidation (status : Int) (contentType : String) (e : Expectation) :
    ValidationResult :=
  { status := match e.status with
      | some s => if s ≠ 0 then decide (status = s) else true
      | none => true
    contentType := match e.contentType with
      | some ct => if ct ≠ "" then strIncludes contentType ct else true
      | none => true }

/-- The `bodyValidation` object. -/
structure BodyValidation where
  matched : Bool
  reason : String
deriving Repr, DecidableEq

/-- JS `typeof v === 'object'` (true for objects, arrays and `null`). -/
def isObjectType : Json → Bool
  | .obj _ => true
  | .arr _ => true
  | .null => true
  | _ => false

/-- The `Object.entries(v)` for an `object`-typed value: object key/value pairs,
index-keyed entries for an array, and a `TypeError` for `null`. -/
def jsEntries : Json → Except String (List (String × Json))
  | .null => .error "TypeError: Object.entries called on null"
  | .obj kvs => .ok kvs
  | .arr xs => .ok (xs.enum.map (fun iv => (toString iv.1, iv.2)))
  | _ => .ok []

/-- The partial body match over the expected object's entries:
`JSON.stringify(responseBody[k]) === JSON.stringify(v)` for every pair
(an absent actual key serializes to JS `undefined`, which equals no
string). -/
def bodyMatchObj (rb : Json) (ekvs : List (String × Json)) : Bool :=
  ekvs.all (fun kv => ((jget rb kv.1).map stringify) == some (stringify kv.2))

/-- The regex branch: the pattern is tested against the body if it is a
string, otherwise against its canonical JSON serialization.  `rt` is the
regex-engine oracle (`pattern → target → tested true?`). -/
def regexTarget (rb : Json) : String :=
  match rb with
  | .str s => s
  | _ => stringify rb

/-- The `bodyValidation` value produced by the regex branch. -/
def regexValidation (rt : String → String → Bool) (pat : String) (rb : Json) :
    BodyValidation :=
  let m := rt pat (regexTarget rb)
  ⟨m, if m then "Regex match succeeded." else "Regex match failed."⟩

/-- The `bodyValidation` as computed by the code (identical in chain mode and
single mode): the body check first, then — when `expect.bodyRegex` is truthy
(present and non-empty) — the regex check replaces the result.  The body
check throws a `TypeError` when the expected body is `null` while the actual
body is `object`-typed non-null (`Object.entries(null)`). -/
def computeBodyValidation (rt : String → String → Bool) (rb : Json) (e : Expectation) :
    Except String BodyValidation := do
  let base : BodyValidation ←
    match e.body with
    | none => pure ⟨true, "No body expectation set."⟩
    | some eb =>
      if isObjectType rb && !rb.isNull && isObjectType eb then do
        let ekvs ← jsEntries eb
        let m := bodyMatchObj rb ekvs
        pure ⟨m, if m then "Partial/exact body match succeeded."
                 else "Partial/exact body match failed."⟩
      else
        match eb with
        | .str s =>
          let m := (stringify rb == s) || (match rb with | .str t => t == s | _ => false)
          pure ⟨m, if m then "Exact string match succeeded." else "Exact string match failed."⟩
        | _ => pure ⟨false, "Body type mismatch."⟩
  match e.bodyRegex with
  | some pat => if pat ≠ "" then pure (regexValidation rt pat rb) else pure base
  | none => pure base

/-! ## Chain orchestrator and session store (apiRequest.ts lines 52-335)

Oracles: `rt` is the regex engine, `tr n` the outcome of the n-th transport
call of the invocation (`context.fetch` plus body parsing: a thrown
transport or JSON-parse error is `.error`), `ts n` the n-th wall-clock
timestamp string, `gen` the generated uuid, `now` the creation timestamp. -/

/-- The request half of a log entry (`{method, url, headers, data}`). -/
structure RequestInfo where
  method : String
  url : String
  headers : List (String × String)
  data : Option Json

/-- Normalized transport result (`{status, statusText, contentType, body}`;
`contentType` is `response.headers()['content-type'] || ''`, `body` the
parsed JSON or the raw text as a string value). -/
structure ResponseInfo where
  status : Int
  statusText : String
  contentType : String
  body : Json

/-- One chain step's aggregated result (pushed into `results`). -/
structure StepResult where
  name : String
  status : Int
  statusText : String
  contentType : String
  body : Json
  validation : ValidationResult
  bodyValidation : BodyValidation
  extracted : Scope

/-- A session log entry: per-request entries (`request` from chain steps,
`single` from single mode) and the per-chain summary entry. -/
inductive LogEntry where
  | request (req : RequestInfo) (resp : ResponseInfo) (expectations : Expectation)
      (validation : ValidationResult) (bodyValidation : BodyValidation) (timestamp : String)
  | chain (steps : List StepResult) (timestamp : String)
  | single (req : RequestInfo) (resp : ResponseInfo) (expectations : Expectation)
      (validation : ValidationResult) (bodyValidation : BodyValidation) (timestamp : String)

/-- Is this a `request`-type entry? -/
def LogEntry.isRequest : LogEntry → Bool
  | .request _ _ _ _ _ _ => true
  | _ => false

/-- Is this a `chain`-type entry? -/
def LogEntry.isChain : LogEntry → Bool
  | .chain _ _ => true
  | _ => false

/-- One element of the `chain` input array. -/
structure ChainStep where
  name : String
  method : String
  url : String
  headers : List (String × String)
  data : Option Json
  expect : Option Expectation
  extract : Option (List (String × String))

/-- The `step.method || 'GET'` (JS truthiness: the empty string also falls back). -/
def effMethod (m : String) : String := if m = "" then "GET" else m

/-- Execute one chain step against the current variable scope: render
templates in url/headers/string data, perform the transport call, validate,
extract, update the scope (flat merge of extracted variables, then the full
step bundle under the step's name).  Any transport or validator throw
aborts with `.error` before anything is logged for this step.
Extracted entries whose value is `undefined` are dropped from the step
bundle object (observationally equal: they render and serialize as absent). -/
def execStep (rt : String → String → Bool) (tr : Nat → Except String ResponseInfo)
    (ts : Nat → String) (i : Nat) (vars : Scope) (step : ChainStep) :
    Except String (LogEntry × StepResult × Scope) :=
  let url := renderTemplate vars step.url
  let headers := step.headers.map (fun kv => (kv.1, renderTemplate vars kv.2))
  let data := match step.data with
    | some (.str s) => some (Json.str (renderTemplate vars s))
    | d => d
  match tr i with
  | .error e => .error e
  | .ok resp =>
    let e := step.expect.getD defaultExpectation
    let validation := computeValidation resp.status resp.contentType e
    match computeBodyValidation rt resp.body e with
    | .error err => .error err
    | .ok bv =>
      let extracted := extractFields resp.body (step.extract.getD [])
      let vars1 := assignAll vars extracted
      let bucket := Json.obj (assignAll []
        (extracted.filterMap (fun kv => kv.2.map (fun v => (kv.1, v))) ++
         [("body", resp.body), ("status", Json.num resp.status),
          ("statusText", Json.str resp.statusText),
          ("contentType", Json.str resp.contentType)]))
      let vars2 := setKey vars1 step.name (some bucket)
      let result : StepResult :=
        ⟨step.name, resp.status, resp.statusText, resp.contentType, resp.body,
         validation, bv, extracted⟩
      let log := LogEntry.request ⟨effMethod step.method, url, headers, data⟩
        resp e validation bv (ts i)
      .ok (log, result, vars2)

/-- Accumulated state of one chain invocation: the variable scope, the
`results` array, and the log entries appended to the session so far. -/
structure ChainAcc where
  stepVars : Scope
  results : List StepResult
  logs : List LogEntry

/-- The empty accumulator at the start of a chain invocation. -/
def emptyAcc : ChainAcc := ⟨[], [], []⟩

/-- The chain loop: steps run strictly sequentially; a step failure returns
the logs already appended together with the error (the session keeps the
partial record; nothing after the failing step runs). -/
def runSteps (rt : String → String → Bool) (tr : Nat → Except String ResponseInfo)
    (ts : Nat → String) : Nat → ChainAcc → List ChainStep → ChainAcc × Option String
  | _, acc, [] => (acc, none)
  | i, acc, step :: rest =>
    match execStep rt tr ts i acc.stepVars step with
    | .error e => (acc, some e)
    | .ok (log, res, vars2) =>
      runSteps rt tr ts (i + 1) ⟨vars2, acc.results ++ [res], acc.logs ++ [log]⟩ rest

/-- A session record (`{sessionId, startTime, logs, status}` as created at
apiRequest.ts lines 75-80; the code never writes any other field — in
particular no `endTime`/`executionTime` ever appears on a session). -/
structure Session where
  sessionId : String
  startTime : String
  logs : List LogEntry
  status : String

/-- A whole chain invocation against a session: run the steps; on success
append the trailing `chain` summary entry and set the status to
`completed`; on a step failure the partial per-step logs stay recorded, the
status is untouched, and the error is returned to the caller. -/
def applyChain (rt : String → String → Bool) (tr : Nat → Except String ResponseInfo)
    (ts : Nat → String) (steps : List ChainStep) (s : Session) :
    Session × Except String (List StepResult) :=
  match runSteps rt tr ts 0 emptyAcc steps with
  | (acc, some e) => ({ s with logs := s.logs ++ acc.logs }, .error e)
  | (acc, none) =>
      let s2 := { s with logs := s.logs ++ acc.logs ++ [LogEntry.chain acc.results (ts steps.length)] }
      ({ s2 with status := "completed" }, .ok acc.results)

/-- The tool's input after zod parsing (`method` carries the schema default
`'GET'`; everything else optional). -/
structure ToolInput where
  sessionId : Option String
  method : String
  url : Option String
  headers : Option (List (String × String))
  data : Option Json
  expect : Option Expectation
  chain : Option (List ChainStep)

/-- The JSON payload the tool returns: `{sessionId, results}` in chain mode,
`{ok, status, statusText, contentType, body, validation, bodyValidation}`
in single mode. -/
inductive Output where
  | chainOut (sessionId : String) (results : List StepResult)
  | singleOut (ok : Bool) (status : Int) (statusText : String) (contentType : String)
      (body : Json) (validation : ValidationResult) (bodyValidation : BodyValidation)

/-- The `validation` as serialized into the result payload. -/
def ValidationResult.toJson (v : ValidationResult) : Json :=
  .obj [("status", .bool v.status), ("contentType", .bool v.contentType)]

/-- The `bodyValidation` as serialized into the result payload. -/
def BodyValidation.toJson (bv : BodyValidation) : Json :=
  .obj [("matched", .bool bv.matched), ("reason", .str bv.reason)]

/-- A step result as serialized into the chain payload (`JSON.stringify`
omits `undefined`-valued extracted entries). -/
def StepResult.toJson (r : StepResult) : Json :=
  .obj [("name", .str r.name), ("status", .num r.status),
        ("statusText", .str r.statusText), ("contentType", .str r.contentType),
        ("body", r.body), ("validation", r.validation.toJson),
        ("bodyValidation", r.bodyValidation.toJson),
        ("extracted", .obj (r.extracted.filterMap (fun kv => kv.2.map (fun v => (kv.1, v)))))]

/-- The object passed to `JSON.stringify` for the tool's text result. -/
def Output.toJson : Output → Json
  | .chainOut sid results =>
      .obj [("sessionId", .str sid), ("results", .arr (results.map StepResult.toJson))]
  | .singleOut ok status statusText contentType body v bv =>
      .obj [("ok", .bool ok), ("status", .num status), ("statusText", .str statusText),
            ("contentType", .str contentType), ("body", body),
            ("validation", v.toJson), ("bodyValidation", bv.toJson)]

/-- Top-level keys of a JSON object. -/
def topKeys : Json → List String
  | .obj kvs => kvs.map (fun kv => kv.1)
  | _ => []

/-- The process-wide session store (`__API_SESSION_STORE__`), a map from
session id to session record. -/
abbrev Store := List (String × Session)

/-- The `sessionStore.get(sid)`. -/
def storeGet (store : Store) (k : String) : Option Session :=
  match store.find? (fun kv => kv.1 == k) with
  | some kv => some kv.2
  | none => none

/-- The record created on first use of a session id. -/
def freshSession (sid now : String) : Session := ⟨sid, now, [], "running"⟩

/-- The `input.sessionId || uuid()` (JS truthiness: the empty string also
triggers generation). -/
def effectiveSessionId (gen : String) (input : ToolInput) : String :=
  match input.sessionId with
  | some sid => if sid = "" then gen else sid
  | none => gen

/-- The status of the session stored under `k`, if any. -/
def sessionStatus (store : Store) (k : String) : Option String :=
  (storeGet store k).map (fun s => s.status)

/-- The full `handle` of the `api_request` tool: resolve/create the session
(before any validation), then run chain mode if `chain` is an array, else
single mode (which requires a truthy `url`, fetches once, validates, and
appends one `single` log entry).  Thrown errors surface as `.error` with
the store in the state it had reached. -/
def handleInvocation (rt : String → String → Bool) (tr : Nat → Except String ResponseInfo)
    (ts : Nat → String) (gen now : String) (store : Store) (input : ToolInput) :
    Store × Except String Output :=
  let sid := effectiveSessionId gen input
  let store1 := if (storeGet store sid).isSome then store
                else store ++ [(sid, freshSession sid now)]
  let session := (storeGet store1 sid).getD (freshSession sid now)
  match input.chain with
  | some steps =>
    let se := applyChain rt tr ts steps session
    (setKey store1 sid se.1, se.2.map (fun results => Output.chainOut sid results))
  | none =>
    match input.url with
    | none => (store1, .error "URL is required for single request mode")
    | some u =>
      if u = "" then (store1, .error "URL is required for single request mode")
      else
        match tr 0 with
        | .error e => (store1, .error e)
        | .ok resp =>
          let e := input.expect.getD defaultExpectation
          let validation := computeValidation resp.status resp.contentType e
          match computeBodyValidation rt resp.body e with
          | .error err => (store1, .error err)
          | .ok bv =>
            let log := LogEntry.single ⟨effMethod input.method, u, input.headers.getD [], input.data⟩
              resp e validation bv (ts 1)
            let s' : Session := { session with logs := session.logs ++ [log] }
            (setKey store1 sid s',
             .ok (Output.singleOut (validation.status && validation.contentType && bv.matched)
                  resp.status resp.statusText resp.contentType resp.body validation bv))

/-! ## Report generator (apiSessionReport.ts)

`escapeHtml` and the per-entry renderer `generateLogEntry` (with its
helpers `generateRequestResponseHtml` and `generateValidationHtml`),
operating on log entries as shaped by `processLogForReport`. -/

/-- One character of `escapeHtml`'s `/[&<>"']/g` replacement. -/
def escapeChar (c : Char) : String :=
  if c = '&' then "&amp;"
  else if c = '<' then "&lt;"
  else if c = '>' then "&gt;"
  else if c = '"' then "&quot;"
  else if c = '\x27' then "&#039;"
  else String.mk [c]

/-- The character-list worker of `escapeHtml`. -/
def escapeList : List Char → List Char
  | [] => []
  | c :: cs => (escapeChar c).data ++ escapeList cs

/-- The `escapeHtml(text)` from apiSessionReport.ts (string case; non-string
arguments are coerced with `String(...)` before use). -/
def escapeHtml (s : String) : String := String.mk (escapeList s.data)

/-- ASCII lowercasing (JS `String.prototype.toLowerCase` on the ASCII
method names that occur here). -/
def strToLower (s : String) : String := String.mk (s.data.map Char.toLower)

/-- JS truthiness of a possibly-absent JSON value. -/
def jsTruthyJson : Option Json → Bool
  | none => false
  | some .null => false
  | some (.bool b) => b
  | some (.num n) => n != 0
  | some (.str s) => s != ""
  | some (.arr _) => true
  | some (.obj _) => true

/-- A headers record as a JSON object (for `JSON.stringify(headers, null, 2)`). -/
def headersToJson (hs : List (String × String)) : Json :=
  .obj (hs.map (fun kv => (kv.1, Json.str kv.2)))

/-- The `request` part of a processed log entry. -/
structure ProcRequest where
  method : String
  url : String
  headers : List (String × String)
  data : Option Json

/-- The `response` part of a processed log entry (`body` is `none` for JS
`undefined`). -/
structure ProcResponse where
  status : Int
  statusText : String
  contentType : String
  headers : List (String × String)
  body : Option Json

/-- A log entry as consumed by `generateLogEntry` (the output shape of
`processLogForReport`): `none` models an absent (`undefined`) part, an
absent `validation`/`bodyValidation`/`expectations` models the `{}`
fallback whose field reads are all `undefined`. -/
structure ProcLog where
  type : String
  formattedTime : String
  request : Option ProcRequest
  response : Option ProcResponse
  validation : Option ValidationResult
  bodyValidation : Option BodyValidation
  expectations : Option Expectation

/-- The `log.request ? (log.request.method || 'UNKNOWN') : 'UNKNOWN'`. -/
def displayMethod (log : ProcLog) : String :=
  match log.request with
  | some r => if r.method = "" then "UNKNOWN" else r.method
  | none => "UNKNOWN"

/-- The `log.request ? (log.request.url || 'UNKNOWN') : 'UNKNOWN'`. -/
def displayUrl (log : ProcLog) : String :=
  match log.request with
  | some r => if r.url = "" then "UNKNOWN" else r.url
  | none => "UNKNOWN"

/-- The `log.response ? (log.response.status || 0) : 0`. -/
def displayStatusCode (log : ProcLog) : Int :=
  match log.response with
  | some r => r.status
  | none => 0

/-- The `log.response ? (log.response.statusText || '') : ''`. -/
def displayStatusText (log : ProcLog) : String :=
  match log.response with
  | some r => r.statusText
  | none => ""

/-- The `log.validation && log.bodyValidation` (truthiness of the two objects). -/
def hasValidation (log : ProcLog) : Bool :=
  log.validation.isSome && log.bodyValidation.isSome

/-- The `hasValidation && validation.status && validation.contentType &&
bodyValidation.matched` (`undefined` fields of the `{}` fallback are
falsy). -/
def isValidationPassed (log : ProcLog) : Bool :=
  hasValidation log &&
  (match log.validation with
   | some v => v.status && v.contentType
   | none => false) &&
  (match log.bodyValidation with
   | some b => b.matched
   | none => false)

/-- The `JSON.stringify(body, null, 2)` as dumped for the actual body in the
validation section (`String(undefined)` when the response or its body is
absent; strings are used verbatim). -/
def respBodyDump (response : Option ProcResponse) : String :=
  match response with
  | some r =>
    match r.body with
    | some (.str s) => s
    | some b => stringifyPretty b
    | none => "undefined"
  | none => "undefined"

/-- The `generateValidationHtml(validation, bodyValidation, expectations,
response)`: the expected-vs-actual comparison block.  All body dumps, the
regex pattern and the reason pass through `escapeHtml`; the content-type
values do not. -/
def generateValidationHtml (validation : ValidationResult) (bodyValidation : BodyValidation)
    (expectations : Expectation) (response : Option ProcResponse) : String :=
  let isPassed := validation.status && validation.contentType && bodyValidation.matched
  "\n        <div class=\"validation-results " ++
  (if isPassed then "validation-passed" else "validation-failed") ++
  "\">\n            <h4>Validation Results</h4>\n            \n            <div class=\"validation-comparison\">\n                <div class=\"validation-section\">\n                    <h5>Expected vs Actual</h5>\n                    \n                    <div class=\"validation-item\">\n                        <strong>Status Code:</strong> " ++
  (if validation.status then "✓ Passed" else "✗ Failed") ++
  "\n                        <div class=\"comparison-details\">\n                            <span class=\"expected\">Expected: " ++
  (match expectations.status with
   | some s => toString s
   | none => "Any") ++
  "</span>\n                            <span class=\"actual\">Actual: " ++
  (match response with
   | some r => if r.status != 0 then toString r.status else "Unknown"
   | none => "Unknown") ++
  "</span>\n                        </div>\n                    </div>\n                    \n                    <div class=\"validation-item\">\n                        <strong>Content Type:</strong> " ++
  (if validation.contentType then "✓ Passed" else "✗ Failed") ++
  "\n                        <div class=\"comparison-details\">\n                            <span class=\"expected\">Expected: " ++
  (match expectations.contentType with
   | some ct => if ct = "" then "Any" else ct
   | none => "Any") ++
  "</span>\n                            <span class=\"actual\">Actual: " ++
  (match response with
   | some r => if r.contentType != "" then r.contentType else "Unknown"
   | none => "Unknown") ++
  "</span>\n                        </div>\n                    </div>\n                    \n                    <div class=\"validation-item\">\n                        <strong>Body Validation:</strong> " ++
  (if bodyValidation.matched then "✓ Passed" else "✗ Failed") ++
  "\n                        <div class=\"comparison-details\">\n                            " ++
  (match expectations.body with
   | some eb =>
     "\n                                <div class=\"expected-section\">\n                                    <strong>Expected Body:</strong>\n                                    <div class=\"code-block small\">" ++
     escapeHtml (match eb with | .str s => s | _ => stringifyPretty eb) ++
     "</div>\n                                </div>\n                                <div class=\"actual-section\">\n                                    <strong>Actual Body:</strong>\n                                    <div class=\"code-block small\">" ++
     escapeHtml (respBodyDump response) ++
     "</div>\n                                </div>\n                            "
   | none => "") ++
  "\n                            " ++
  (match expectations.bodyRegex with
   | some pat =>
     if pat = "" then ""
     else
       "\n                                <div class=\"regex-section\">\n                                    <strong>Expected Regex Pattern:</strong>\n                                    <div class=\"code-block small\">" ++
       escapeHtml pat ++
       "</div>\n                                </div>\n                            "
   | none => "") ++
  "\n                        </div>\n                    </div>\n                    \n                    " ++
  (if bodyValidation.reason != "" then
     "\n                        <div class=\"validation-reason\">\n                            <strong>Validation Reason:</strong> " ++
     escapeHtml bodyValidation.reason ++
     "\n                        </div>\n                    "
   else "") ++
  "\n                </div>\n            </div>\n        </div>\n        "

/-- The `generateRequestResponseHtml(log)`: the side-by-side request/response
panel.  The URL, header dumps and body dumps pass through `escapeHtml`; the
method, status, status text and content type do not. -/
def generateRequestResponseHtml (log : ProcLog) : String :=
  if log.request.isNone && log.response.isNone then
    "<p>No request/response data available</p>"
  else
    "\n        <div class=\"request-response-grid\">\n            <div class=\"request-section\">\n                <div class=\"section-title\">Request</div>\n                " ++
    (match log.request with
     | some req =>
       "\n                    <p><strong>Method:</strong> " ++
       (if req.method = "" then "UNKNOWN" else req.method) ++
       "</p>\n                    <p><strong>URL:</strong> " ++
       escapeHtml (if req.url = "" then "UNKNOWN" else req.url) ++
       "</p>\n                    " ++
       (if req.headers.isEmpty then "" else
         "\n                        <p><strong>Headers:</strong></p>\n                        <div class=\"code-block\">" ++
         escapeHtml (stringifyPretty (headersToJson req.headers)) ++
         "</div>\n                    ") ++
       "\n                    " ++
       (if jsTruthyJson req.data then
         "\n                        <p><strong>Body:</strong></p>\n                        <div class=\"code-block\">" ++
         escapeHtml (stringifyPretty (req.data.getD Json.null)) ++
         "</div>\n                    "
        else "") ++
       "\n                "
     | none => "<p>No request data available</p>") ++
    "\n            </div>\n            <div class=\"response-section\">\n                <div class=\"section-title\">Response</div>\n                " ++
    (match log.response with
     | some resp =>
       "\n                    <p><strong>Status:</strong> " ++
       (if resp.status != 0 then toString resp.status else "UNKNOWN") ++
       " " ++
       (if resp.statusText != "" then "- " ++ resp.statusText else "") ++
       "</p>\n                    " ++
       (if resp.contentType != "" then
         "<p><strong>Content Type:</strong> " ++ resp.contentType ++ "</p>"
        else "") ++
       "\n                    " ++
       (if resp.headers.isEmpty then "" else
         "\n                        <p><strong>Headers:</strong></p>\n                        <div class=\"code-block\">" ++
         escapeHtml (stringifyPretty (headersToJson resp.headers)) ++
         "</div>\n                    ") ++
       "\n                    " ++
       (match resp.body with
        | some b =>
          "\n                        <p><strong>Body:</strong></p>\n                        <div class=\"code-block\">" ++
          (match b with
           | .str s => escapeHtml s
           | _ => escapeHtml (stringifyPretty b)) ++
          "</div>\n                    "
        | none => "") ++
       "\n                "
     | none => "<p>No response data available</p>") ++
    "\n            </div>\n        </div>\n        "

/-- Everything `generateLogEntry` emits before the escaped URL: the entry
and header scaffolding, the arrow, and the method badge (the method is
interpolated twice, both times without escaping). -/
def logEntryPre (log : ProcLog) : String :=
  "\n        <div class=\"log-entry\">\n            <div class=\"log-header\">\n                <div class=\"log-title\">\n                    <span class=\"arrow\">▶</span>\n                    <span class=\"method method-" ++
  strToLower (displayMethod log) ++
  "\">" ++
  displayMethod log ++
  "</span>\n                    <span>"

/-- Everything `generateLogEntry` emits after the escaped URL: the status
span (status code and status text, unescaped), the validation badge, the
timestamp, and the body panels. -/
def logEntryPost (log : ProcLog) : String :=
  let statusCode := displayStatusCode log
  let statusClass := if statusCode > 0 then "status-" ++ toString (statusCode / 100) ++ "xx" else ""
  "</span>\n                    " ++
  (if statusCode > 0 then
    "<span class=\"status-code " ++ statusClass ++ "\">" ++
    toString statusCode ++ " " ++ displayStatusText log ++ "</span>"
   else "") ++
  "\n                    " ++
  (if hasValidation log then
    "<span class=\"validation-badge " ++
    (if isValidationPassed log then "passed" else "failed") ++
    "\">\n                            " ++
    (if isValidationPassed log then "✓" else "✗") ++
    " Validation\n                        </span>"
   else "") ++
  "\n                </div>\n                <div class=\"log-time\">" ++
  log.formattedTime ++
  "</div>\n            </div>\n            <div class=\"log-body\">\n                " ++
  generateRequestResponseHtml log ++
  "\n                " ++
  (match log.validation, log.bodyValidation with
   | some v, some bv =>
     generateValidationHtml v bv (log.expectations.getD defaultExpectation) log.response
   | _, _ => "") ++
  "\n            </div>\n        </div>\n        "

/-- The `generateLogEntry(log, index)`: chain-type container entries render to
nothing; every other entry renders as scaffolding, the raw method, the
escaped URL, then `logEntryPost`. -/
def generateLogEntry (log : ProcLog) (_index : Nat) : String :=
  if log.type == "chain" then ""
  else logEntryPre log ++ escapeHtml (displayUrl log) ++ logEntryPost log

/-- The placeholder text `{{a.b}}` built from two path segments. -/
def mkPlaceholder (a b : String) : String :=
  "\x7b\x7b" ++ a ++ "." ++ b ++ "\x7d\x7d"

/-! ### Concrete fixtures used by witnesses and counterexamples -/

/-- A regex oracle that matches everything (the behaviour of the JS empty
pattern `new RegExp('')`). -/
def rtAll : String → String → Bool := fun _ _ => true

/-- A fixed timestamp oracle. -/
def tsW : Nat → String := fun _ => "2026-01-01T00:00:00.000Z"

/-- A transport oracle: first call succeeds with a JSON object body, second
call throws. -/
def trBoom : Nat → Except String ResponseInfo := fun n =>
  if n = 0 then .ok ⟨200, "OK", "application/json", Json.obj [("token", Json.str "abc123")]⟩
  else .error "boom"

/-- A transport oracle whose calls all succeed with a plain-text body. -/
def trOk : Nat → Except String ResponseInfo := fun _ =>
  .ok ⟨200, "OK", "text/plain", Json.str "hi"⟩

/-- A two-step chain fixture (login extracting a token, then a templated
follow-up request). -/
def wSteps : List ChainStep :=
  [⟨"login", "POST", "http://h/login", [("Content-Type", "application/json")],
    none, some ⟨some 200, none, none, none⟩, some [("token", "token")]⟩,
   ⟨"getUser", "GET", "http://h/user", [("Authorization", "Bearer \x7b\x7blogin.token\x7d\x7d")],
    none, none, none⟩]

/-- A session fixture in its initial state. -/
def wSession : Session := freshSession "sess" "2026-01-01T00:00:00.000Z"

/-- A processed log entry whose status text carries markup. -/
def badLog : ProcLog :=
  ⟨"single", "", none,
   some ⟨200, "<script>boom</script>", "", [], some (Json.str "ok")⟩,
   none, none, none⟩

/-! ## C6 helper lemmas — template-engine computation -/

theorem mk_data (s : String) : String.mk s.data = s := by
  cases s
  rfl

theorem wordDot_not_space {c : Char} (h : wordDot c = true) : jsSpace c = false := by
  cases hc : jsSpace c
  · rfl
  · exfalso
    simp only [jsSpace, Bool.or_eq_true, beq_iff_eq] at hc
    rcases hc with ((((rfl | rfl) | rfl) | rfl) | rfl) | rfl <;> exact absurd h (by decide)

theorem takeWhile_all {p : Char → Bool} :
    ∀ (xs ys : List Char), (∀ c ∈ xs, p c = true) →
      (xs ++ ys).takeWhile p = xs ++ ys.takeWhile p := by
  intro xs
  induction xs with
  | nil => simp
  | cons x xs ih =>
    intro ys h
    simp only [List.cons_append, List.takeWhile_cons, h x (List.mem_cons_self _ _), if_true]
    rw [ih ys (fun c hc => h c (List.mem_cons_of_mem _ hc))]

theorem dropWhile_all {p : Char → Bool} :
    ∀ (xs ys : List Char), (∀ c ∈ xs, p c = true) →
      (xs ++ ys).dropWhile p = ys.dropWhile p := by
  intro xs
  induction xs with
  | nil => simp
  | cons x xs ih =>
    intro ys h
    simp only [List.cons_append, List.dropWhile_cons, h x (List.mem_cons_self _ _), if_true]
    exact ih ys (fun c hc => h c (List.mem_cons_of_mem _ hc))

theorem splitDots_noDot :
    ∀ (xs : List Char), (∀ c ∈ xs, c ≠ '.') → splitDots xs = [xs] := by
  intro xs
  induction xs with
  | nil =>
    intro
    rfl
  | cons x xs ih =>
    intro h
    simp only [splitDots]
    rw [if_neg (h x (List.mem_cons_self _ _)), ih (fun c hc => h c (List.mem_cons_of_mem _ hc))]

theorem splitDots_append :
    ∀ (xs ys : List Char), (∀ c ∈ xs, c ≠ '.') →
      splitDots (xs ++ '.' :: ys) = xs :: splitDots ys := by
  intro xs
  induction xs with
  | nil =>
    intro ys h
    simp [splitDots]
  | cons x xs ih =>
    intro ys h
    simp only [List.cons_append, splitDots, List.append_eq]
    rw [if_neg (h x (List.mem_cons_self _ _)), ih ys (fun c hc => h c (List.mem_cons_of_mem _ hc))]

theorem jgetOpt_some (v : Json) (p : String) : jgetOpt (some v) p = jget v p := by
  cases v <;> rfl

theorem renderLoop_no_match (vars : Scope) :
    ∀ (fuel : Nat) (l : List Char), hasTemplateMatch l = false → renderLoop vars fuel l = l := by
  intro fuel
  induction fuel with
  | zero =>
    intro l h
    cases l <;> rfl
  | succ fuel ih =>
    intro l h
    cases l with
    | nil => rfl
    | cons c cs =>
      simp only [hasTemplateMatch, Bool.or_eq_false_iff] at h
      obtain ⟨h1, h2⟩ := h
      have hn : tryMatch (c :: cs) = none := by
        cases ht : tryMatch (c :: cs)
        · rfl
        · rw [ht] at h1
          simp at h1
      simp only [renderLoop, hn]
      rw [ih cs h2]

/-! ## C6 — template rendering -/

/-- C6: template rendering never throws (the model is a total function);
it is the identity on every string containing no placeholder occurrence;
and a `{{a.b}}` placeholder whose first segment is absent from the scope
(or defined but `undefined`), or whose value lacks the field `b`, renders
to the empty string. -/
theorem C6_render_template :
    (∀ (vars : Scope) (s : String), hasTemplateMatch s.data = false →
      renderTemplate vars s = s) ∧
    (∀ (vars : Scope) (a b : String),
      a.data ≠ [] → b.data ≠ [] →
      (∀ c ∈ a.data, wordDot c = true ∧ c ≠ '.') →
      (∀ c ∈ b.data, wordDot c = true ∧ c ≠ '.') →
      (scopeGet vars a = none ∨ ∃ v, scopeGet vars a = some v ∧ jget v b = none) →
      renderTemplate vars (mkPlaceholder a b) = "") := by
  constructor
  · intro vars s h
    unfold renderTemplate renderTemplateChars
    rw [renderLoop_no_match vars _ _ h, mk_data]
  · intro vars a b ha hb hwa hwb hres
    obtain ⟨a0, la, hla⟩ := List.exists_cons_of_ne_nil ha
    obtain ⟨b0, lb, hlb⟩ := List.exists_cons_of_ne_nil hb
    have hwa' : ∀ c ∈ (a0 :: la), wordDot c = true ∧ c ≠ '.' := hla ▸ hwa
    have hwb' : ∀ c ∈ (b0 :: lb), wordDot c = true ∧ c ≠ '.' := hlb ▸ hwb
    have hdot : wordDot '.' = true := by decide
    have hdata : (mkPlaceholder a b).data =
        '{' :: '{' :: ((a0 :: la) ++ '.' :: ((b0 :: lb) ++ ['}', '}'])) := by
      simp [mkPlaceholder, hla, hlb]
    have hw : ((a0 :: la) ++ '.' :: ((b0 :: lb) ++ ['}', '}'])).takeWhile wordDot =
        (a0 :: la) ++ '.' :: (b0 :: lb) := by
      rw [takeWhile_all _ _ (fun c hc => (hwa' c hc).1)]
      rw [List.takeWhile_cons_of_pos hdot]
      rw [takeWhile_all _ _ (fun c hc => (hwb' c hc).1)]
      simp [show wordDot '}' = false from by decide]
    have hd : ((a0 :: la) ++ '.' :: ((b0 :: lb) ++ ['}', '}'])).dropWhile wordDot =
        ['}', '}'] := by
      rw [dropWhile_all _ _ (fun c hc => (hwa' c hc).1)]
      rw [List.dropWhile_cons_of_pos hdot]
      rw [dropWhile_all _ _ (fun c hc => (hwb' c hc).1)]
      rfl
    have hnospace : ((a0 :: la) ++ '.' :: ((b0 :: lb) ++ ['}', '}'])).dropWhile jsSpace =
        (a0 :: la) ++ '.' :: ((b0 :: lb) ++ ['}', '}']) := by
      simp only [List.cons_append]
      exact List.dropWhile_cons_of_neg (by simp [wordDot_not_space (hwa' a0 (List.mem_cons_self _ _)).1])
    have htm : tryMatch ('{' :: '{' :: ((a0 :: la) ++ '.' :: ((b0 :: lb) ++ ['}', '}']))) =
        some ((a0 :: la) ++ '.' :: (b0 :: lb), []) := by
      simp only [tryMatch, if_pos (And.intro rfl rfl)]
      rw [hnospace, hw, hd]
      rfl
    have hresolve : renderResolve vars ((a0 :: la) ++ '.' :: (b0 :: lb)) = "" := by
      simp only [renderResolve]
      rw [splitDots_append _ _ (fun c hc => (hwa' c hc).2),
          splitDots_noDot _ (fun c hc => (hwb' c hc).2)]
      simp only [List.foldl_cons, List.foldl_nil]
      have hmka : String.mk (a0 :: la) = a := by rw [← hla, mk_data]
      have hmkb : String.mk (b0 :: lb) = b := by rw [← hlb, mk_data]
      rw [hmka, hmkb]
      rcases hres with hnone | ⟨v, hv, hjv⟩
      · rw [hnone]
        rfl
      · rw [hv, jgetOpt_some, hjv]
    unfold renderTemplate renderTemplateChars
    rw [hdata]
    simp only [List.length_cons]
    simp only [renderLoop, htm]
    rw [hresolve]
    rfl

/-- C6 witness: a placeholder-free string renders to itself, and an
unresolvable `{{a.b}}` renders to the empty string. -/
theorem C6_witness :
    renderTemplate [("x", some (Json.num 1))] "hello" = "hello" ∧
    renderTemplate [] (mkPlaceholder "a" "b") = "" :=
  ⟨C6_render_template.1 [("x", some (Json.num 1))] "hello" (by decide),
   C6_render_template.2 [] "a" "b" (by decide) (by decide) (by decide) (by decide)
     (Or.inl rfl)⟩

/-! ## C5 — status / content-type validation -/

/-- C5 (amended): `validation.status` is true iff the status expectation is
absent **or zero** (JS truthiness skips a zero expected status), or the
actual status equals the expected status exactly; `validation.contentType`
is true iff the content-type expectation is absent or the actual
content-type contains the expected one as a substring (an empty expected
content-type is skipped by truthiness, but the empty string is a substring
of everything, so the substring reading is unaffected). -/
theorem C5_validation_amended :
    ∀ (status : Int) (ct : String) (e : Expectation),
      ((computeValidation status ct e).status = true ↔
        (e.status = none ∨ e.status = some 0 ∨ e.status = some status)) ∧
      ((computeValidation status ct e).contentType = true ↔
        (e.contentType = none ∨ ∃ s, e.contentType = some s ∧ s.data <:+: ct.data)) := by
  intro status ct e
  obtain ⟨es, ec, eb, er⟩ := e
  constructor
  · cases es with
    | none => simp [computeValidation]
    | some s =>
      by_cases h0 : s = 0
      · subst h0
        simp [computeValidation]
      · simp only [computeValidation, h0, ne_eq, not_false_iff, if_true, decide_eq_true_eq,
          Option.some.injEq, reduceCtorEq, false_or]
        exact eq_comm
  · cases ec with
    | none => simp [computeValidation]
    | some s =>
      by_cases h0 : s = ""
      · subst h0
        refine iff_of_true ?_ (Or.inr ⟨"", rfl, ⟨[], ct.data, by simp⟩⟩)
        simp [computeValidation]
      · simp only [computeValidation, h0, ne_eq, not_false_iff, if_true, strIncludes,
          listSub_iff, Option.some.injEq, reduceCtorEq, false_or]
        constructor
        · intro h; exact ⟨s, rfl, h⟩
        · rintro ⟨t, rfl, h⟩; exact h

/-- C5 counterexample: the claim as stated fails for an expected status of
`0` — JS truthiness makes the code skip the comparison and report `true`,
while the claim demands equality with the actual status. -/
theorem C5_counterexample :
    ¬(((computeValidation 200 "text/html" ⟨some 0, none, none, none⟩).status = true) ↔
      ((⟨some 0, none, none, none⟩ : Expectation).status = none ∨
       (⟨some 0, none, none, none⟩ : Expectation).status = some 200)) := by
  decide

/-! ## C4 — bodyRegex overrides the body check -/

/-- C4 (amended): when `bodyRegex` is supplied **non-empty** and the
preceding body check does not throw (it throws only for an expected body of
JSON `null` against an object-typed actual body), the resulting
`bodyValidation` is exactly the regex check's result — the body
expectation's outcome never influences it. -/
theorem C4_regex_override_amended :
    ∀ (rt : String → String → Bool) (rb : Json) (e : Expectation) (pat : String)
      (bv : BodyValidation),
      e.bodyRegex = some pat → pat ≠ "" →
      computeBodyValidation rt rb e = .ok bv →
      bv = regexValidation rt pat rb := by
  intro rt rb e pat bv hr hne h
  unfold computeBodyValidation at h
  rw [hr] at h
  simp only [hne, ne_eq, not_false_iff, if_true] at h
  split at h
  · simp only [Bind.bind, Except.bind, pure, Except.pure, Except.ok.injEq] at h
    exact h.symm
  · rename_i eb heb
    split at h
    · cases hje : jsEntries eb with
      | error err =>
        rw [hje] at h
        simp [Bind.bind, Except.bind] at h
      | ok ekvs =>
        rw [hje] at h
        simp only [Bind.bind, Except.bind, pure, Except.pure, Except.ok.injEq] at h
        exact h.symm
    · split at h <;>
        · simp only [Bind.bind, Except.bind, pure, Except.pure, Except.ok.injEq] at h
          exact h.symm

/-- C4 counterexample: with `bodyRegex` supplied as the empty string (which
JS treats as falsy), the code returns the body check's verdict, not the
regex check's — here the body check fails while the (empty-pattern) regex
check would succeed. -/
theorem C4_counterexample :
    computeBodyValidation rtAll (Json.obj [("a", Json.num 2)])
      ⟨none, none, some (Json.obj [("a", Json.num 1)]), some ""⟩ =
      .ok ⟨false, "Partial/exact body match failed."⟩ ∧
    regexValidation rtAll "" (Json.obj [("a", Json.num 2)]) =
      ⟨true, "Regex match succeeded."⟩ :=
  ⟨rfl, rfl⟩

/-- C4 witness: a concrete non-empty pattern over a type-mismatching body
expectation still yields exactly the regex result. -/
theorem C4_witness :
    (⟨true, "Regex match succeeded."⟩ : BodyValidation) =
      regexValidation rtAll "x" (Json.str "x") :=
  C4_regex_override_amended rtAll (Json.str "x")
    ⟨none, none, some (Json.num 5), some "x"⟩ "x"
    ⟨true, "Regex match succeeded."⟩ rfl (by decide) rfl

/-! ## Chain-loop lemmas for C1 / C2 -/

theorem execStep_ok {rt : String → String → Bool} {tr : Nat → Except String ResponseInfo}
    {ts : Nat → String} {i : Nat} {vars : Scope} {step : ChainStep}
    {log : LogEntry} {res : StepResult} {vars2 : Scope}
    (h : execStep rt tr ts i vars step = .ok (log, res, vars2)) :
    log.isRequest = true ∧ res.name = step.name := by
  unfold execStep at h
  cases htr : tr i with
  | error e =>
    rw [htr] at h
    dsimp only at h
    exact absurd h (by simp)
  | ok resp =>
    rw [htr] at h
    dsimp only at h
    cases hbv : computeBodyValidation rt resp.body (step.expect.getD defaultExpectation) with
    | error err =>
      rw [hbv] at h
      exact absurd h (by simp)
    | ok bv =>
      rw [hbv] at h
      simp only [Except.ok.injEq, Prod.mk.injEq] at h
      obtain ⟨h1, h2, h3⟩ := h
      subst h1
      subst h2
      exact ⟨rfl, rfl⟩

theorem execStep_error_of_tr {rt : String → String → Bool}
    {tr : Nat → Except String ResponseInfo} {ts : Nat → String} {i : Nat} {vars : Scope}
    {step : ChainStep} {msg : String} (h : tr i = .error msg) :
    execStep rt tr ts i vars step = .error msg := by
  unfold execStep
  rw [h]

theorem runSteps_append (rt : String → String → Bool) (tr : Nat → Except String ResponseInfo)
    (ts : Nat → String) :
    ∀ (l₁ l₂ : List ChainStep) (i : Nat) (acc : ChainAcc),
      runSteps rt tr ts i acc (l₁ ++ l₂) =
        match runSteps rt tr ts i acc l₁ with
        | (acc', none) => runSteps rt tr ts (i + l₁.length) acc' l₂
        | (acc', some e) => (acc', some e) := by
  intro l₁
  induction l₁ with
  | nil =>
    intro l₂ i acc
    simp [runSteps]
  | cons step rest ih =>
    intro l₂ i acc
    simp only [List.cons_append, runSteps]
    cases hes : execStep rt tr ts i acc.stepVars step with
    | error e => simp
    | ok triple =>
      obtain ⟨log, res, vars2⟩ := triple
      simp only [List.append_eq]
      rw [ih]
      have harith : i + 1 + rest.length = i + (rest.length + 1) := by omega
      simp only [List.length_cons, harith]

theorem runSteps_ok_shape (rt : String → String → Bool) (tr : Nat → Except String ResponseInfo)
    (ts : Nat → String) :
    ∀ (l : List ChainStep) (i : Nat) (acc acc' : ChainAcc),
      runSteps rt tr ts i acc l = (acc', none) →
      ∃ L R, acc'.logs = acc.logs ++ L ∧ acc'.results = acc.results ++ R ∧
        L.length = l.length ∧ R.length = l.length ∧
        (∀ entry ∈ L, entry.isRequest = true) ∧
        R.map StepResult.name = l.map ChainStep.name := by
  intro l
  induction l with
  | nil =>
    intro i acc acc' h
    simp only [runSteps, Prod.mk.injEq] at h
    obtain ⟨rfl, -⟩ := h
    exact ⟨[], [], by simp, by simp, rfl, rfl, by simp, by simp⟩
  | cons step rest ih =>
    intro i acc acc' h
    simp only [runSteps] at h
    cases hes : execStep rt tr ts i acc.stepVars step with
    | error e =>
      rw [hes] at h
      simp at h
    | ok triple =>
      obtain ⟨log, res, vars2⟩ := triple
      rw [hes] at h
      obtain ⟨L, R, h1, h2, h3, h4, h5, h6⟩ :=
        ih (i + 1) ⟨vars2, acc.results ++ [res], acc.logs ++ [log]⟩ acc' h
      obtain ⟨hreq, hname⟩ := execStep_ok hes
      refine ⟨log :: L, res :: R, ?_, ?_, ?_, ?_, ?_, ?_⟩
      · simp only [h1, List.append_assoc, List.singleton_append]
      · simp only [h2, List.append_assoc, List.singleton_append]
      · simp [h3]
      · simp [h4]
      · intro entry hentry
        rcases List.mem_cons.mp hentry with rfl | hmem
        · exact hreq
        · exact h5 entry hmem
      · simp only [List.map_cons, h6, hname]

/-! ## C1 — a transport error aborts the chain, keeping partial logs -/

/-- C1: if steps `0..i-1` of a chain complete and the transport call of
step `i` throws, the invocation aborts: exactly the `i` per-step
`request`-type entries of the completed steps are appended to the session
(no `chain`-type entry), the session status is untouched, and the transport
error is returned to the caller. -/
theorem C1_chain_abort :
    ∀ (rt : String → String → Bool) (tr : Nat → Except String ResponseInfo)
      (ts : Nat → String) (steps : List ChainStep) (s : Session) (i : Nat) (msg : String),
      i < steps.length →
      (runSteps rt tr ts 0 emptyAcc (steps.take i)).2 = none →
      tr i = .error msg →
      (applyChain rt tr ts steps s).1.logs =
        s.logs ++ (runSteps rt tr ts 0 emptyAcc (steps.take i)).1.logs ∧
      (applyChain rt tr ts steps s).1.status = s.status ∧
      (applyChain rt tr ts steps s).2 = .error msg ∧
      (runSteps rt tr ts 0 emptyAcc (steps.take i)).1.logs.length = i ∧
      (∀ entry ∈ (runSteps rt tr ts 0 emptyAcc (steps.take i)).1.logs,
        entry.isRequest = true) ∧
      (∀ entry ∈ (runSteps rt tr ts 0 emptyAcc (steps.take i)).1.logs,
        entry.isChain = false) := by
  intro rt tr ts steps s i msg hi h2 htr
  have hrs : runSteps rt tr ts 0 emptyAcc (steps.take i) =
      ((runSteps rt tr ts 0 emptyAcc (steps.take i)).1, none) := by
    rw [← h2]
  set acc := (runSteps rt tr ts 0 emptyAcc (steps.take i)).1 with hacc
  have hsplit : steps = steps.take i ++ steps.drop i := (List.take_append_drop i steps).symm
  have hdrop : steps.drop i = steps[i] :: steps.drop (i + 1) :=
    List.drop_eq_getElem_cons hi
  have hlen : (steps.take i).length = i := by
    simp [List.length_take]
    omega
  have hfull : runSteps rt tr ts 0 emptyAcc steps = (acc, some msg) := by
    conv_lhs => rw [hsplit]
    rw [runSteps_append]
    rw [hrs]
    simp only [hlen, Nat.zero_add]
    rw [hdrop]
    simp only [runSteps]
    rw [execStep_error_of_tr htr]
  have hshape := runSteps_ok_shape rt tr ts (steps.take i) 0 emptyAcc acc hrs
  obtain ⟨L, R, hL, hR, hLlen, hRlen, hLreq, hLname⟩ := hshape
  have hLacc : acc.logs = L := by
    simpa [emptyAcc] using hL
  refine ⟨?_, ?_, ?_, ?_, ?_, ?_⟩
  · unfold applyChain
    rw [hfull]
  · unfold applyChain
    rw [hfull]
  · unfold applyChain
    rw [hfull]
  · rw [hLacc, hLlen, hlen]
  · intro entry hentry
    exact hLreq entry (hLacc ▸ hentry)
  · intro entry hentry
    have hh := hLreq entry (hLacc ▸ hentry)
    cases entry with
    | request _ _ _ _ _ _ => rfl
    | chain _ _ => exact absurd hh (by simp [LogEntry.isRequest])
    | single _ _ _ _ _ _ => exact absurd hh (by simp [LogEntry.isRequest])

/-- C1 witness: a two-step chain whose second transport call throws keeps
exactly the first step's `request` entry and surfaces the error. -/
theorem C1_witness :
    (applyChain rtAll trBoom tsW wSteps wSession).1.logs =
      wSession.logs ++ (runSteps rtAll trBoom tsW 0 emptyAcc (wSteps.take 1)).1.logs ∧
    (applyChain rtAll trBoom tsW wSteps wSession).1.status = wSession.status ∧
    (applyChain rtAll trBoom tsW wSteps wSession).2 = .error "boom" ∧
    (runSteps rtAll trBoom tsW 0 emptyAcc (wSteps.take 1)).1.logs.length = 1 ∧
    (∀ entry ∈ (runSteps rtAll trBoom tsW 0 emptyAcc (wSteps.take 1)).1.logs,
      entry.isRequest = true) ∧
    (∀ entry ∈ (runSteps rtAll trBoom tsW 0 emptyAcc (wSteps.take 1)).1.logs,
      entry.isChain = false) :=
  C1_chain_abort rtAll trBoom tsW wSteps wSession 1 "boom" (by decide) rfl rfl

/-! ## C2 — a successful N-step chain appends N+1 entries and completes -/

/-- C2: a chain invocation of `N` steps that completes appends exactly one
`request`-type entry per step, in step order, followed by one trailing
`chain`-type entry carrying the ordered `N`-element results array, and sets
the session status to `completed`. -/
theorem C2_chain_success :
    ∀ (rt : String → String → Bool) (tr : Nat → Except String ResponseInfo)
      (ts : Nat → String) (steps : List ChainStep) (s : Session),
      (runSteps rt tr ts 0 emptyAcc steps).2 = none →
      (applyChain rt tr ts steps s).1.logs =
        s.logs ++ (runSteps rt tr ts 0 emptyAcc steps).1.logs ++
          [LogEntry.chain (runSteps rt tr ts 0 emptyAcc steps).1.results (ts steps.length)] ∧
      (applyChain rt tr ts steps s).1.status = "completed" ∧
      (applyChain rt tr ts steps s).2 = .ok (runSteps rt tr ts 0 emptyAcc steps).1.results ∧
      (runSteps rt tr ts 0 emptyAcc steps).1.logs.length = steps.length ∧
      (∀ entry ∈ (runSteps rt tr ts 0 emptyAcc steps).1.logs, entry.isRequest = true) ∧
      (runSteps rt tr ts 0 emptyAcc steps).1.results.length = steps.length ∧
      (runSteps rt tr ts 0 emptyAcc steps).1.results.map StepResult.name =
        steps.map ChainStep.name := by
  intro rt tr ts steps s h
  have hrs : runSteps rt tr ts 0 emptyAcc steps =
      ((runSteps rt tr ts 0 emptyAcc steps).1, none) := by
    rw [← h]
  set acc := (runSteps rt tr ts 0 emptyAcc steps).1 with hacc
  obtain ⟨L, R, hL, hR, hLlen, hRlen, hLreq, hRname⟩ :=
    runSteps_ok_shape rt tr ts steps 0 emptyAcc acc hrs
  have hLacc : acc.logs = L := by simpa [emptyAcc] using hL
  have hRacc : acc.results = R := by simpa [emptyAcc] using hR
  refine ⟨?_, ?_, ?_, ?_, ?_, ?_, ?_⟩
  · unfold applyChain
    rw [hrs]
  · unfold applyChain
    rw [hrs]
  · unfold applyChain
    rw [hrs]
  · rw [hLacc, hLlen]
  · intro entry hentry
    exact hLreq entry (hLacc ▸ hentry)
  · rw [hRacc, hRlen]
  · rw [hRacc, hRname]

/-- C2 witness: a two-step chain (with template use in the second step)
that completes appends 2 request entries plus the chain entry and the
results carry the step names in order. -/
theorem C2_witness :
    (applyChain rtAll (fun _ => .ok ⟨200, "OK", "application/json",
        Json.obj [("token", Json.str "abc123")]⟩) tsW wSteps wSession).1.status =
      "completed" ∧
    (runSteps rtAll (fun _ => .ok ⟨200, "OK", "application/json",
        Json.obj [("token", Json.str "abc123")]⟩) tsW 0 emptyAcc wSteps).1.logs.length = 2 ∧
    (runSteps rtAll (fun _ => .ok ⟨200, "OK", "application/json",
        Json.obj [("token", Json.str "abc123")]⟩) tsW 0 emptyAcc wSteps).1.results.map
        StepResult.name = wSteps.map ChainStep.name :=
  let conc := C2_chain_success rtAll (fun _ => .ok ⟨200, "OK", "application/json",
    Json.obj [("token", Json.str "abc123")]⟩) tsW wSteps wSession rfl
  ⟨conc.2.1, conc.2.2.2.1, conc.2.2.2.2.2.2⟩

/-! ## Session-store lemmas for C7 / C10 -/

theorem storeGet_append_case (store : Store) (sid : String) (sess : Session) (k : String) :
    storeGet (store ++ [(sid, sess)]) k =
      match storeGet store k with
      | some s => some s
      | none => if sid == k then some sess else none := by
  induction store with
  | nil =>
    simp only [List.nil_append, storeGet, List.find?]
    cases h : (sid == k) <;> simp [h]
  | cons kv rest ih =>
    simp only [List.cons_append, storeGet, List.find?_cons] at *
    cases h : (kv.1 == k) with
    | true => simp
    | false => exact ih

theorem storeGet_map_setKey_self (sid : String) (s' : Session) :
    ∀ (store : Store), store.any (fun kv => kv.1 == sid) = true →
      storeGet (store.map (fun kv => if kv.1 == sid then (kv.1, s') else kv)) sid = some s' := by
  intro store
  induction store with
  | nil => intro h; simp at h
  | cons kv rest ih =>
    intro hany
    simp only [List.any_cons, Bool.or_eq_true] at hany
    simp only [List.map_cons, storeGet, List.find?_cons]
    by_cases h : (kv.1 == sid) = true
    · rw [if_pos h]
      simp [h]
    · rw [if_neg h]
      rw [Bool.not_eq_true] at h
      rw [h]
      rcases hany with h1 | h2
      · rw [h] at h1
        exact absurd h1 (by simp)
      · exact ih h2

theorem storeGet_map_setKey_other (sid : String) (s' : Session) (k : String) (hne : k ≠ sid) :
    ∀ (store : Store),
      storeGet (store.map (fun kv => if kv.1 == sid then (kv.1, s') else kv)) k =
        storeGet store k := by
  intro store
  induction store with
  | nil => rfl
  | cons kv rest ih =>
    simp only [List.map_cons, storeGet, List.find?_cons]
    by_cases h : (kv.1 == sid) = true
    · rw [if_pos h]
      have hkk : (kv.1 == k) = false := by
        rw [beq_eq_false_iff_ne]
        simp only [beq_iff_eq] at h
        rw [h]
        exact fun hk => hne hk.symm
      simp only [hkk]
      exact ih
    · rw [if_neg h]
      cases hkk : (kv.1 == k) with
      | true => simp
      | false => exact ih

theorem storeGet_setKey_self (store : Store) (sid : String) (s' : Session) :
    storeGet (setKey store sid s') sid = some s' := by
  unfold setKey
  by_cases hany : store.any (fun kv => kv.1 == sid) = true
  · rw [if_pos hany]
    exact storeGet_map_setKey_self sid s' store hany
  · rw [if_neg hany]
    have hnone : storeGet store sid = none := by
      unfold storeGet
      have : store.find? (fun kv => kv.1 == sid) = none := by
        apply List.find?_eq_none.mpr
        intro kv hkv hp
        exact hany (List.any_eq_true.mpr ⟨kv, hkv, hp⟩)
      rw [this]
    rw [storeGet_append_case, hnone]
    simp

theorem storeGet_setKey_other (store : Store) (sid : String) (s' : Session) (k : String)
    (hne : k ≠ sid) : storeGet (setKey store sid s') k = storeGet store k := by
  unfold setKey
  split
  · exact storeGet_map_setKey_other sid s' k hne store
  · rw [storeGet_append_case]
    cases h : storeGet store k with
    | some s => rfl
    | none =>
      have hf : (sid == k) = false := by
        rw [beq_eq_false_iff_ne]
        exact fun hk => hne hk.symm
      simp [hf]

/-- The store produced by one `handle` invocation: either untouched past
session creation (error paths), or the resolved session updated in place —
with status preserved, or set to `completed` exactly when a chain ran to
completion. -/
theorem handleInvocation_store (rt : String → String → Bool)
    (tr : Nat → Except String ResponseInfo) (ts : Nat → String) (gen now : String)
    (store : Store) (input : ToolInput) :
    (handleInvocation rt tr ts gen now store input).1 =
        (if (storeGet store (effectiveSessionId gen input)).isSome then store
         else store ++ [(effectiveSessionId gen input,
                         freshSession (effectiveSessionId gen input) now)]) ∨
    (∃ s' : Session,
      (handleInvocation rt tr ts gen now store input).1 =
        setKey (if (storeGet store (effectiveSessionId gen input)).isSome then store
                else store ++ [(effectiveSessionId gen input,
                                freshSession (effectiveSessionId gen input) now)])
          (effectiveSessionId gen input) s' ∧
      (s'.status =
        ((storeGet (if (storeGet store (effectiveSessionId gen input)).isSome then store
                    else store ++ [(effectiveSessionId gen input,
                                    freshSession (effectiveSessionId gen input) now)])
            (effectiveSessionId gen input)).getD
          (freshSession (effectiveSessionId gen input) now)).status ∨
       (s'.status = "completed" ∧ ∃ steps, input.chain = some steps ∧
         (runSteps rt tr ts 0 emptyAcc steps).2 = none))) := by
  unfold handleInvocation
  cases hchain : input.chain with
  | some steps =>
    simp only
    rcases hrun : runSteps rt tr ts 0 emptyAcc steps with ⟨acc, err⟩
    cases err with
    | none =>
      refine Or.inr ⟨_, rfl, Or.inr ⟨?_, steps, rfl, by rw [hrun]⟩⟩
      unfold applyChain
      rw [hrun]
    | some e =>
      refine Or.inr ⟨_, rfl, Or.inl ?_⟩
      unfold applyChain
      rw [hrun]
  | none =>
    simp only
    cases hurl : input.url with
    | none => exact Or.inl rfl
    | some u =>
      simp only
      by_cases hu : u = ""
      · rw [if_pos hu]
        exact Or.inl rfl
      · rw [if_neg hu]
        cases htr : tr 0 with
        | error e => exact Or.inl rfl
        | ok resp =>
          simp only
          cases hbv : computeBodyValidation rt resp.body (input.expect.getD defaultExpectation) with
          | error err => exact Or.inl rfl
          | ok bv => exact Or.inr ⟨_, rfl, Or.inl rfl⟩

/-! ## C3 — partial body match over object bodies -/

theorem jlookup_append_not_mem {A extra : List (String × Json)} {k : String}
    (h : k ∉ extra.map Prod.fst) : jlookup (A ++ extra) k = jlookup A k := by
  induction A with
  | nil =>
    simp only [List.nil_append, jlookup]
    have hnone : extra.find? (fun kv => kv.1 == k) = none := by
      apply List.find?_eq_none.mpr
      intro kv hkv
      simp only [beq_iff_eq]
      intro hk
      exact h (hk ▸ List.mem_map_of_mem Prod.fst hkv)
    rw [hnone]
    rfl
  | cons kv rest ih =>
    simp only [List.cons_append, jlookup, List.find?_cons] at *
    cases hkv : (kv.1 == k) with
    | true => rfl
    | false => exact ih

theorem all_congr_local {α : Type} (f g : α → Bool) :
    ∀ (l : List α), (∀ x ∈ l, f x = g x) → l.all f = l.all g := by
  intro l
  induction l with
  | nil => intro; rfl
  | cons x xs ih =>
    intro h
    simp only [List.all_cons]
    rw [h x (List.mem_cons_self x xs), ih (fun y hy => h y (List.mem_cons_of_mem x hy))]

/-- C3: for an object-typed actual body `A` and object expected body `E`
(no regex supplied), the computed `bodyValidation.matched` is exactly the
conjunction over the expected entries of serialized-value equality at that
key; keys of `A` outside `E` never affect the verdict; and changing any one
expected value to one with a different serialization forces a failing
verdict. -/
theorem C3_body_partial_match :
    ∀ (rt : String → String → Bool) (A E : List (String × Json)) (e : Expectation),
      e.body = some (Json.obj E) → e.bodyRegex = none →
      (computeBodyValidation rt (Json.obj A) e =
        .ok ⟨bodyMatchObj (Json.obj A) E,
             if bodyMatchObj (Json.obj A) E then "Partial/exact body match succeeded."
             else "Partial/exact body match failed."⟩) ∧
      (bodyMatchObj (Json.obj A) E = true ↔
        ∀ kv ∈ E, (jget (Json.obj A) kv.1).map stringify = some (stringify kv.2)) ∧
      (∀ (extra : List (String × Json)),
        (∀ k ∈ extra.map Prod.fst, k ∉ E.map Prod.fst) →
        bodyMatchObj (Json.obj (A ++ extra)) E = bodyMatchObj (Json.obj A) E) ∧
      (∀ (E1 E2 : List (String × Json)) (k : String) (v v' : Json),
        E = E1 ++ (k, v) :: E2 → stringify v' ≠ stringify v →
        bodyMatchObj (Json.obj A) E = true →
        bodyMatchObj (Json.obj A) (E1 ++ (k, v') :: E2) = false) := by
  intro rt A E e hb hr
  obtain ⟨es, ec, eb, er⟩ := e
  simp only at hb hr
  subst hb
  subst hr
  refine ⟨rfl, ?_, ?_, ?_⟩
  · simp only [bodyMatchObj, List.all_eq_true, beq_iff_eq]
  · intro extra hdisj
    have hpt : ∀ kv ∈ E, jget (Json.obj (A ++ extra)) kv.1 = jget (Json.obj A) kv.1 := by
      intro kv hkv
      show jlookup (A ++ extra) kv.1 = jlookup A kv.1
      apply jlookup_append_not_mem
      intro hmem
      exact hdisj kv.1 hmem (List.mem_map_of_mem Prod.fst hkv)
    exact all_congr_local _ _ E (fun kv hkv => by
      simp only [bodyMatchObj, hpt kv hkv])
  · intro E1 E2 k v v' hE hne hall
    subst hE
    simp only [bodyMatchObj, List.all_append, List.all_cons, Bool.and_eq_true] at hall
    obtain ⟨h1, h2, h3⟩ := hall
    have h2' : (jget (Json.obj A) k).map stringify = some (stringify v) := by
      simpa [beq_iff_eq] using h2
    have hf : (((jget (Json.obj A) k).map stringify) == some (stringify v')) = false := by
      rw [h2']
      simp only [beq_eq_false_iff_ne, ne_eq, Option.some.injEq]
      intro hh
      exact hne hh.symm
    simp [bodyMatchObj, List.all_append, List.all_cons, hf]

/-- C3 witness: a two-key actual object partially matched against a one-key
expected object evaluates through the first conjunct of the theorem. -/
theorem C3_witness :
    computeBodyValidation (fun _ _ => false)
      (Json.obj [("a", Json.num 1), ("c", Json.num 3)])
      ⟨none, none, some (Json.obj [("a", Json.num 1)]), none⟩ =
    .ok ⟨bodyMatchObj (Json.obj [("a", Json.num 1), ("c", Json.num 3)]) [("a", Json.num 1)],
         if bodyMatchObj (Json.obj [("a", Json.num 1), ("c", Json.num 3)]) [("a", Json.num 1)]
         then "Partial/exact body match succeeded."
         else "Partial/exact body match failed."⟩ :=
  (C3_body_partial_match (fun _ _ => false)
    [("a", Json.num 1), ("c", Json.num 3)] [("a", Json.num 1)]
    ⟨none, none, some (Json.obj [("a", Json.num 1)]), none⟩ rfl rfl).1

/-! ## C7 — single mode without a url -/

/-- C7 (amended): a single-mode invocation with a missing (or empty, which
JS treats the same) `url` fails fast with the descriptive error and
modifies no existing session record — but because the session is created
*before* the url check, a store that does not yet hold the session id gains
one fresh `running` record. -/
theorem C7_missing_url_amended :
    ∀ (rt : String → String → Bool) (tr : Nat → Except String ResponseInfo)
      (ts : Nat → String) (gen now : String) (store : Store) (input : ToolInput),
      input.chain = none → (input.url = none ∨ input.url = some "") →
      (handleInvocation rt tr ts gen now store input).2 =
        .error "URL is required for single request mode" ∧
      (∀ k v, (k, v) ∈ store → (k, v) ∈ (handleInvocation rt tr ts gen now store input).1) ∧
      ((storeGet store (effectiveSessionId gen input)).isSome →
        (handleInvocation rt tr ts gen now store input).1 = store) ∧
      ((storeGet store (effectiveSessionId gen input)).isSome = false →
        (handleInvocation rt tr ts gen now store input).1 =
          store ++ [(effectiveSessionId gen input,
                     freshSession (effectiveSessionId gen input) now)]) := by
  intro rt tr ts gen now store input hchain hurl
  have hout : handleInvocation rt tr ts gen now store input =
      ((if (storeGet store (effectiveSessionId gen input)).isSome then store
        else store ++ [(effectiveSessionId gen input,
                        freshSession (effectiveSessionId gen input) now)]),
       .error "URL is required for single request mode") := by
    unfold handleInvocation
    rw [hchain]
    rcases hurl with h | h
    · rw [h]
    · rw [h]
      rfl
  rw [hout]
  refine ⟨rfl, ?_, ?_, ?_⟩
  · intro k v hkv
    by_cases hs : (storeGet store (effectiveSessionId gen input)).isSome
    · rw [if_pos hs]
      exact hkv
    · rw [if_neg hs]
      exact List.mem_append_left _ hkv
  · intro hs
    rw [if_pos hs]
  · intro hs
    rw [if_neg (by rw [hs]; exact Bool.false_ne_true)]

/-- C7 counterexample: a failing single-mode call (no `url`) against an
empty store leaves a newly created session record behind — the store is
*not* left unchanged as the claim states. -/
theorem C7_counterexample :
    (handleInvocation rtAll trOk tsW "gen-id" "t0" []
        ⟨some "s1", "GET", none, none, none, none, none⟩).1 =
      [("s1", freshSession "s1" "t0")] ∧
    (handleInvocation rtAll trOk tsW "gen-id" "t0" []
        ⟨some "s1", "GET", none, none, none, none, none⟩).2 =
      .error "URL is required for single request mode" :=
  ⟨rfl, rfl⟩

/-- C7 witness: the amended theorem applied to that same failing call. -/
theorem C7_witness :
    (handleInvocation rtAll trOk tsW "gen-id" "t0" []
        ⟨some "s1", "GET", none, none, none, none, none⟩).2 =
      .error "URL is required for single request mode" ∧
    (∀ k v, (k, v) ∈ ([] : Store) →
      (k, v) ∈ (handleInvocation rtAll trOk tsW "gen-id" "t0" []
        ⟨some "s1", "GET", none, none, none, none, none⟩).1) ∧
    ((storeGet [] (effectiveSessionId "gen-id"
        ⟨some "s1", "GET", none, none, none, none, none⟩)).isSome →
      (handleInvocation rtAll trOk tsW "gen-id" "t0" []
        ⟨some "s1", "GET", none, none, none, none, none⟩).1 = []) ∧
    ((storeGet [] (effectiveSessionId "gen-id"
        ⟨some "s1", "GET", none, none, none, none, none⟩)).isSome = false →
      (handleInvocation rtAll trOk tsW "gen-id" "t0" []
        ⟨some "s1", "GET", none, none, none, none, none⟩).1 =
        [] ++ [(effectiveSessionId "gen-id" ⟨some "s1", "GET", none, none, none, none, none⟩,
                freshSession (effectiveSessionId "gen-id"
                  ⟨some "s1", "GET", none, none, none, none, none⟩) "t0")]) :=
  C7_missing_url_amended rtAll trOk tsW "gen-id" "t0" []
    ⟨some "s1", "GET", none, none, none, none, none⟩ rfl (Or.inl rfl)

/-! ## C8 — the single-mode result omits the sessionId -/

/-- C8 (code bug): the repository's usage documentation promises "the tool
result will always include the sessionId used", and chain mode does return
`{sessionId, results}` — but the single-mode result object
`{ok, status, statusText, contentType, body, validation, bodyValidation}`
has no `sessionId` key, so a caller who omitted the id cannot learn the
generated one from a single-mode call. -/
theorem C8_single_result_omits_sessionId :
    (handleInvocation rtAll trOk tsW "gen-id" "t0" []
        ⟨none, "GET", some "http://h/x", none, none, none, none⟩).2 =
      .ok (Output.singleOut true 200 "OK" "text/plain" (Json.str "hi")
           ⟨true, true⟩ ⟨true, "No body expectation set."⟩) ∧
    topKeys (Output.singleOut true 200 "OK" "text/plain" (Json.str "hi")
           ⟨true, true⟩ ⟨true, "No body expectation set."⟩).toJson =
      ["ok", "status", "statusText", "contentType", "body", "validation", "bodyValidation"] ∧
    ¬ ("sessionId" ∈ topKeys (Output.singleOut true 200 "OK" "text/plain" (Json.str "hi")
           ⟨true, true⟩ ⟨true, "No body expectation set."⟩).toJson) ∧
    topKeys (Output.chainOut "gen-id" []).toJson = ["sessionId", "results"] := by
  refine ⟨rfl, rfl, ?_, rfl⟩
  decide

/-! ## C10 — session status state machine -/

/-- C10: across any single invocation, a session's status either stays what
it was, is `running` for a freshly created record, or becomes `completed` —
and `completed` only through a chain invocation that ran to completion.
Single-mode invocations and chain invocations aborted by a step failure
never change any status, and the value `failed` is never assigned (the
`Session` record of the model also carries no `endTime`/`executionTime`
field because the code never writes one). -/
theorem C10_status_machine :
    ∀ (rt : String → String → Bool) (tr : Nat → Except String ResponseInfo)
      (ts : Nat → String) (gen now : String) (store : Store) (input : ToolInput) (k : String),
      (sessionStatus (handleInvocation rt tr ts gen now store input).1 k =
          sessionStatus store k ∨
       (sessionStatus store k = none ∧
        sessionStatus (handleInvocation rt tr ts gen now store input).1 k = some "running") ∨
       (sessionStatus (handleInvocation rt tr ts gen now store input).1 k = some "completed" ∧
        input.chain.isSome = true)) ∧
      (input.chain = none →
        (sessionStatus (handleInvocation rt tr ts gen now store input).1 k =
            sessionStatus store k ∨
         (sessionStatus store k = none ∧
          sessionStatus (handleInvocation rt tr ts gen now store input).1 k =
            some "running"))) ∧
      (∀ steps, input.chain = some steps → (runSteps rt tr ts 0 emptyAcc steps).2 ≠ none →
        (sessionStatus (handleInvocation rt tr ts gen now store input).1 k =
            sessionStatus store k ∨
         (sessionStatus store k = none ∧
          sessionStatus (handleInvocation rt tr ts gen now store input).1 k =
            some "running"))) ∧
      (sessionStatus store k ≠ some "failed" →
        sessionStatus (handleInvocation rt tr ts gen now store input).1 k ≠
          some "failed") := by
  intro rt tr ts gen now store input k
  set sid := effectiveSessionId gen input with hsid
  set store1 := (if (storeGet store sid).isSome then store
                 else store ++ [(sid, freshSession sid now)]) with hstore1
  set store' := (handleInvocation rt tr ts gen now store input).1 with hstore'
  have hchar := handleInvocation_store rt tr ts gen now store input
  rw [← hsid, ← hstore1, ← hstore'] at hchar
  have h1 : sessionStatus store1 k = sessionStatus store k ∨
      (sessionStatus store k = none ∧ sessionStatus store1 k = some "running") := by
    rw [hstore1]
    by_cases hs : (storeGet store sid).isSome
    · rw [if_pos hs]
      exact Or.inl rfl
    · rw [if_neg hs]
      have hnone : storeGet store sid = none :=
        Option.not_isSome_iff_eq_none.mp (by simpa using hs)
      by_cases hk : k = sid
      · subst hk
        refine Or.inr ⟨by simp [sessionStatus, hnone], ?_⟩
        simp [sessionStatus, storeGet_append_case, hnone, freshSession]
      · refine Or.inl ?_
        unfold sessionStatus
        rw [storeGet_append_case]
        cases hg : storeGet store k with
        | some s => rfl
        | none =>
          simp [show (sid == k) = false from by
            rw [beq_eq_false_iff_ne]; exact fun h => hk h.symm]
  have h2 : sessionStatus store1 sid =
      some (((storeGet store1 sid).getD (freshSession sid now)).status) := by
    rw [hstore1]
    by_cases hs : (storeGet store sid).isSome
    · rw [if_pos hs]
      obtain ⟨s0, hs0⟩ := Option.isSome_iff_exists.mp hs
      simp [sessionStatus, hs0]
    · rw [if_neg hs]
      have hnone : storeGet store sid = none :=
        Option.not_isSome_iff_eq_none.mp (by simpa using hs)
      simp [sessionStatus, storeGet_append_case, hnone]
  have hpreserved : ∀ s' : Session, store' = setKey store1 sid s' →
      s'.status = ((storeGet store1 sid).getD (freshSession sid now)).status →
      (sessionStatus store' k = sessionStatus store k ∨
       (sessionStatus store k = none ∧ sessionStatus store' k = some "running")) := by
    intro s' heq hpres
    by_cases hk : k = sid
    · subst hk
      have hss : sessionStatus store' sid = some s'.status := by
        rw [heq]
        unfold sessionStatus
        rw [storeGet_setKey_self]
        rfl
      have hthis : sessionStatus store1 sid = some s'.status := by
        rw [h2, hpres]
      rcases h1 with ha | ⟨ha, hb⟩
      · refine Or.inl ?_
        rw [hss, ← hthis]
        exact ha
      · refine Or.inr ⟨ha, ?_⟩
        rw [hss, ← hthis]
        exact hb
    · have hss : sessionStatus store' k = sessionStatus store1 k := by
        rw [heq]
        unfold sessionStatus
        rw [storeGet_setKey_other _ _ _ _ hk]
      rcases h1 with ha | ⟨ha, hb⟩
      · exact Or.inl (hss.trans ha)
      · exact Or.inr ⟨ha, hss.trans hb⟩
  have partA : sessionStatus store' k = sessionStatus store k ∨
      (sessionStatus store k = none ∧ sessionStatus store' k = some "running") ∨
      (sessionStatus store' k = some "completed" ∧ input.chain.isSome = true) := by
    rcases hchar with heq | ⟨s', heq, hstat⟩
    · rw [heq]
      rcases h1 with ha | ⟨ha, hb⟩
      · exact Or.inl ha
      · exact Or.inr (Or.inl ⟨ha, hb⟩)
    · rcases hstat with hpres | ⟨hcomp, steps, hchain, hok⟩
      · rcases hpreserved s' heq hpres with ha | hb
        · exact Or.inl ha
        · exact Or.inr (Or.inl hb)
      · by_cases hk : k = sid
        · subst hk
          refine Or.inr (Or.inr ⟨?_, by rw [hchain]; rfl⟩)
          rw [heq]
          unfold sessionStatus
          rw [storeGet_setKey_self]
          simp only [Option.map_some']
          rw [hcomp]
        · have hss : sessionStatus store' k = sessionStatus store1 k := by
            rw [heq]
            unfold sessionStatus
            rw [storeGet_setKey_other _ _ _ _ hk]
          rcases h1 with ha | ⟨ha, hb⟩
          · exact Or.inl (hss.trans ha)
          · exact Or.inr (Or.inl ⟨ha, hss.trans hb⟩)
  refine ⟨partA, ?_, ?_, ?_⟩
  · intro hcn
    rcases hchar with heq | ⟨s', heq, hstat⟩
    · rw [heq]
      exact h1
    · rcases hstat with hpres | ⟨-, steps, hchain, -⟩
      · exact hpreserved s' heq hpres
      · rw [hcn] at hchain
        exact absurd hchain (by simp)
  · intro steps hchain habort
    rcases hchar with heq | ⟨s', heq, hstat⟩
    · rw [heq]
      exact h1
    · rcases hstat with hpres | ⟨-, steps', hchain', hok⟩
      · exact hpreserved s' heq hpres
      · rw [hchain] at hchain'
        obtain rfl : steps = steps' := by
          simpa using hchain'
        exact absurd hok habort
  · intro hnf
    rcases partA with ha | ⟨-, hb⟩ | ⟨hb, -⟩
    · rw [ha]
      exact hnf
    · rw [hb]
      simp
    · rw [hb]
      simp

/-- C10 witness: a single-mode call on an empty store leaves the fresh
session in status `running`. -/
theorem C10_witness :
    sessionStatus (handleInvocation rtAll trOk tsW "gen" "t0" []
        ⟨some "s1", "GET", some "http://h/x", none, none, none, none⟩).1 "s1" =
      sessionStatus ([] : Store) "s1" ∨
    (sessionStatus ([] : Store) "s1" = none ∧
     sessionStatus (handleInvocation rtAll trOk tsW "gen" "t0" []
        ⟨some "s1", "GET", some "http://h/x", none, none, none, none⟩).1 "s1" =
      some "running") :=
  (C10_status_machine rtAll trOk tsW "gen" "t0" []
    ⟨some "s1", "GET", some "http://h/x", none, none, none, none⟩ "s1").2.1 rfl

/-! ## C9 — escaping of interpolated report fields -/

theorem escapeChar_no_angle (c : Char) :
    ∀ d ∈ (escapeChar c).data, d ≠ '<' ∧ d ≠ '>' := by
  intro d hd
  unfold escapeChar at hd
  by_cases h1 : c = '&'
  · rw [if_pos h1] at hd
    simp only [String.data] at hd
    fin_cases hd <;> exact ⟨by decide, by decide⟩
  · rw [if_neg h1] at hd
    by_cases h2 : c = '<'
    · rw [if_pos h2] at hd
      fin_cases hd <;> exact ⟨by decide, by decide⟩
    · rw [if_neg h2] at hd
      by_cases h3 : c = '>'
      · rw [if_pos h3] at hd
        fin_cases hd <;> exact ⟨by decide, by decide⟩
      · rw [if_neg h3] at hd
        by_cases h4 : c = '"'
        · rw [if_pos h4] at hd
          fin_cases hd <;> exact ⟨by decide, by decide⟩
        · rw [if_neg h4] at hd
          by_cases h5 : c = '\x27'
          · rw [if_pos h5] at hd
            fin_cases hd <;> exact ⟨by decide, by decide⟩
          · rw [if_neg h5] at hd
            have : d = c := by simpa using hd
            subst this
            exact ⟨h2, h3⟩

/-- C9 (amended): `escapeHtml` output never contains a raw `<` or `>`, so
every field interpolated through it (the URL, the header and body dumps,
the regex pattern, the validation reason) cannot introduce markup; and each
rendered non-chain log entry is exactly the fixed scaffolding around the
*escaped* URL — but the method, status text and content type are
interpolated outside `escapeHtml` (see the counterexample). -/
theorem C9_escaping_amended :
    (∀ (s : String), ∀ c ∈ (escapeHtml s).data, c ≠ '<' ∧ c ≠ '>') ∧
    (∀ (log : ProcLog) (idx : Nat), log.type ≠ "chain" →
      generateLogEntry log idx =
        logEntryPre log ++ escapeHtml (displayUrl log) ++ logEntryPost log) := by
  constructor
  · intro s
    suffices h : ∀ (l : List Char), ∀ c ∈ escapeList l, c ≠ '<' ∧ c ≠ '>' by
      exact h s.data
    intro l
    induction l with
    | nil => intro c hc; simp [escapeList] at hc
    | cons x xs ih =>
      intro c hc
      simp only [escapeList, List.mem_append] at hc
      rcases hc with hc | hc
      · exact escapeChar_no_angle x c hc
      · exact ih c hc
  · intro log idx h
    unfold generateLogEntry
    rw [if_neg (by simpa using h)]

set_option maxRecDepth 100000 in
/-- C9 counterexample: a log entry whose response status text is
`<script>boom</script>` puts that markup verbatim into the rendered
document (the raw `<script>` substring occurs in the output), even though
`escapeHtml` — which the claim says every such field passes through —
can never produce it. -/
theorem C9_counterexample :
    listSub "<script>".data (generateLogEntry badLog 0).data = true ∧
    listSub "<script>".data (escapeHtml "<script>boom</script>").data = false := by
  exact ⟨by decide, by decide⟩

/-- C9 witness: the decomposition theorem applied to the fixture entry. -/
theorem C9_witness :
    generateLogEntry badLog 0 =
      logEntryPre badLog ++ escapeHtml (displayUrl badLog) ++ logEntryPost badLog :=
  C9_escaping_amended.2 badLog 0 (by decide)

end PwMcp
